import Mathlib

/-!
Verification development for the BERT encoder model declared in
`models/bert/bert.hpp` (class `mlpack::ann::BERT`).  The repository ships only
the header (`bert_impl.hpp` is not present), so the behavioural components are
modelled from the specification as noted on each definition; the header itself
fixes the constructor signature and its default arguments, the by-value mask
members, and the `void` return types of `LoadModel` and `SaveModel`.

Real-valued tensors are embedded as lists of rationals.  The two irrational
primitives — the softmax exponential and the reciprocal square root used by
attention scaling and layer normalisation — are passed as abstract function
parameters (`e` and `rsqrt`), with positivity of the exponential taken as a
hypothesis where a theorem needs it.  Dropout is modelled in evaluation mode,
where it is the identity.
-/

namespace BertSpec

/-- Dense vector of rational entries (embeds a row of an `arma::mat`). -/
abbrev Vec := List ℚ

/-- Dense matrix, stored row-major as a list of rows. -/
abbrev Mat := List Vec

/-- Dot product of two vectors (surplus entries of the longer one drop out). -/
def dot (x y : Vec) : ℚ := (List.zipWith (· * ·) x y).sum

/-- Apply the linear map given by matrix `W`, one row per output coordinate. -/
def applyLinear (W : Mat) (x : Vec) : Vec := W.map (fun r => dot r x)

/-- Elementwise sum of two vectors. -/
def addVec (x y : Vec) : Vec := List.zipWith (· + ·) x y

/-- Modelled from the spec: §4.3/§4.4 (implementation file `bert_impl.hpp` is
absent).  Unnormalised softmax weights of one attention row: a blocked key
contributes weight `0` (the `-∞` additive bias pushed through the
exponential), an allowed key contributes `e` of its score, where `e`
abstracts the exponential function. -/
def preWeights (e : ℚ → ℚ) (b : List Bool) (s : List ℚ) : List ℚ :=
  List.zipWith (fun bj sj => if bj then (0 : ℚ) else e sj) b s

/-- Modelled from the spec: §4.3 edge case and §4.4 (`bert_impl.hpp` absent).
Softmax over one attention row with masking: when every key is blocked the
denominator is zero and the row is defined to be all-zero; otherwise each
weight is normalised by the row sum. -/
def maskedSoftmaxRow (e : ℚ → ℚ) (b : List Bool) (s : List ℚ) : List ℚ :=
  let w := preWeights e b s
  if w.sum = 0 then w.map (fun _ => 0) else w.map (fun a => a / w.sum)

/-- Sum of rows weighted by coefficients, starting from the zero vector of
length `len` (the attention output for one query position). -/
def weightedSum (w : List ℚ) (rows : Mat) (len : ℕ) : Vec :=
  (List.zipWith (fun c r => r.map (fun a => c * a)) w rows).foldl addVec
    (List.replicate len 0)

/-- Modelled from the spec: §4.4 (`bert_impl.hpp` absent).  Learned query,
key and value projections of one attention head, each `headDim × dModel`. -/
structure HeadParams where
  wq : Mat
  wk : Mat
  wv : Mat

/-- Modelled from the spec: §4.4.  Scaled score matrix of one head:
query row dot key row, times the scaling factor `scale` (which stands for
`1 / sqrt(headDim)`). -/
def headScores (scale : ℚ) (hp : HeadParams) (X : Mat) : Mat :=
  let q := X.map (applyLinear hp.wq)
  let k := X.map (applyLinear hp.wk)
  q.map (fun qi => k.map (fun kj => dot qi kj * scale))

/-- Modelled from the spec: §4.3/§4.4.  Attention weight matrix of one head:
row `i` is the masked softmax of score row `i` under the blocked-key row of
query `i`. -/
def headWeights (e : ℚ → ℚ) (scale : ℚ) (hp : HeadParams)
    (blocked : ℕ → List Bool) (X : Mat) : Mat :=
  (List.range X.length).map
    (fun i => maskedSoftmaxRow e (blocked i) ((headScores scale hp X).getD i []))

/-- Modelled from the spec: §4.4.  Per-head attention output: each query row
is the attention-weighted sum of the value rows (`hd` is the head width). -/
def headOutputRows (e : ℚ → ℚ) (scale : ℚ) (hp : HeadParams)
    (blocked : ℕ → List Bool) (X : Mat) (hd : ℕ) : Mat :=
  let v := X.map (applyLinear hp.wv)
  (headWeights e scale hp blocked X).map (fun wrow => weightedSum wrow v hd)

/-- Modelled from the spec: §3/§4.4-§4.6 (`bert_impl.hpp` absent).  Learned
parameters of one encoder layer: the attention heads, the output projection,
the two feed-forward matrices and the two normalisation scale/shift pairs. -/
structure LayerParams where
  heads : List HeadParams
  wo : Mat
  w1 : Mat
  w2 : Mat
  g1 : Vec
  s1 : Vec
  g2 : Vec
  s2 : Vec

/-- Position-wise concatenation of the per-head output matrices. -/
def concatHeads (outs : List Mat) (n : ℕ) : Mat :=
  (List.range n).map (fun i => (outs.map (fun o => o.getD i [])).flatten)

/-- Modelled from the spec: §4.4.  Multi-head attention: per-head outputs are
concatenated position-wise and sent through the learned output projection.
Dropout on the attention weights is the identity in evaluation mode. -/
def multiHeadAttention (e : ℚ → ℚ) (scale : ℚ) (hd : ℕ) (p : LayerParams)
    (blocked : ℕ → List Bool) (X : Mat) : Mat :=
  (concatHeads (p.heads.map (fun hp => headOutputRows e scale hp blocked X hd))
    X.length).map (applyLinear p.wo)

/-- Mean of the entries of a vector. -/
def meanOf (x : Vec) : ℚ := x.sum / x.length

/-- Population variance of the entries of a vector. -/
def varOf (x : Vec) : ℚ := ((x.map (fun a => (a - meanOf x) ^ 2)).sum) / x.length

/-- Modelled from the spec: §4.6.  Per-position layer normalisation with
learned scale `g` and shift `s`; `rsqrt` abstracts the reciprocal square
root applied to variance plus the stabilising `eps`. -/
def normRow (rsqrt : ℚ → ℚ) (eps : ℚ) (g s x : Vec) : Vec :=
  let inv := rsqrt (varOf x + eps)
  List.zipWith (· + ·)
    (List.zipWith (· * ·) g (x.map (fun a => (a - meanOf x) * inv))) s

/-- Rectified linear unit, applied elementwise. -/
def reluVec (x : Vec) : Vec := x.map (fun a => max a 0)

/-- Modelled from the spec: §4.5.  Feed-forward sublayer on one position:
expand, nonlinearity, project back (dropout is the identity in evaluation
mode). -/
def ffnRow (w1 w2 : Mat) (x : Vec) : Vec :=
  applyLinear w2 (reluVec (applyLinear w1 x))

/-- Modelled from the spec: §4.6.  One encoder layer: attention sublayer with
residual connection and normalisation, then the feed-forward sublayer with
residual connection and normalisation. -/
def encoderLayer (e rsqrt : ℚ → ℚ) (eps scale : ℚ) (hd : ℕ) (p : LayerParams)
    (blocked : ℕ → List Bool) (X : Mat) : Mat :=
  let a := multiHeadAttention e scale hd p blocked X
  let x1 := (List.zipWith addVec X a).map (normRow rsqrt eps p.g1 p.s1)
  x1.map (fun r => normRow rsqrt eps p.g2 p.s2 (addVec r (ffnRow p.w1 p.w2 r)))

/-- Modelled from the spec: §4.7.  The encoder stack applies the layers
sequentially, passing the same blocked-key information to every layer. -/
def encoderStack (e rsqrt : ℚ → ℚ) (eps scale : ℚ) (hd : ℕ)
    (layers : List LayerParams) (blocked : ℕ → List Bool) (X : Mat) : Mat :=
  layers.foldl (fun acc p => encoderLayer e rsqrt eps scale hd p blocked acc) X

/-- Whether the attention mask blocks the pair `(i, j)`; an empty mask (or a
position outside it) blocks nothing. -/
def attnMaskBlocks (am : List (List Bool)) (i j : ℕ) : Bool :=
  (am.getD i []).getD j false

/-- Whether the key padding mask blocks key `j`; an empty mask blocks
nothing. -/
def kpMaskBlocks (kp : List Bool) (j : ℕ) : Bool := kp.getD j false

/-- Modelled from the spec: §4.3 and design note §9 (`bert_impl.hpp` absent).
The two masks combine by logical OR: a pair is blocked when either mask
blocks it. -/
def combinedBlocked (am : List (List Bool)) (kp : List Bool) (i j : ℕ) : Bool :=
  attnMaskBlocks am i j || kpMaskBlocks kp j

/-- Blocked-key row of query `i` over `n` key positions. -/
def blockedRow (am : List (List Bool)) (kp : List Bool) (n : ℕ) (i : ℕ) :
    List Bool :=
  (List.range n).map (fun j => combinedBlocked am kp i j)

/-- Construction failure (spec §7 taxonomy). -/
inductive ConfigError where
  | invalidConfig
deriving DecidableEq

/-- The validated hyperparameter set held by a constructed model, mirroring
the private fields of class `BERT` (bert.hpp lines 78-104). -/
structure Config where
  srcVocabSize : ℕ
  srcSeqLen : ℕ
  numEncoderLayers : ℕ
  dModel : ℕ
  numHeads : ℕ
  dimFFN : ℕ
  dropout : ℚ
  attentionMask : List (List Bool)
  keyPaddingMask : List Bool

/-- Learned parameters of the whole model: token embedding table, positional
table (the learned-table variant allowed by §4.2), and the per-layer
parameters. -/
structure Params where
  embedding : Mat
  posTable : Mat
  layers : List LayerParams

/-- A constructed model: configuration plus parameters (bert.hpp class
`BERT`). -/
structure Model where
  config : Config
  params : Params

/-- All-zero matrix of the given dimensions. -/
def zeroMat (r c : ℕ) : Mat := List.replicate r (List.replicate c 0)

/-- Modelled from the spec: initialisation is an external strategy (§9); the
deterministic all-zero instance is used, which fixes every matrix to its
declared shape. -/
def initHead (dModel hd : ℕ) : HeadParams :=
  ⟨zeroMat hd dModel, zeroMat hd dModel, zeroMat hd dModel⟩

/-- Initial parameters of one encoder layer with the shapes of §3. -/
def initLayer (dModel numHeads hd dimFFN : ℕ) : LayerParams :=
  ⟨List.replicate numHeads (initHead dModel hd),
   zeroMat dModel (numHeads * hd), zeroMat dimFFN dModel,
   zeroMat dModel dimFFN,
   List.replicate dModel 1, List.replicate dModel 0,
   List.replicate dModel 1, List.replicate dModel 0⟩

/-- Initial parameters of the whole model. -/
def initParams (cfg : Config) : Params :=
  ⟨zeroMat cfg.srcVocabSize cfg.dModel,
   zeroMat cfg.srcSeqLen cfg.dModel,
   List.replicate cfg.numEncoderLayers
     (initLayer cfg.dModel cfg.numHeads (cfg.dModel / cfg.numHeads) cfg.dimFFN)⟩

/-- Modelled from the spec: §4.1/§6 (`bert_impl.hpp` absent).  Constructing
the model validates the hyperparameters: zero vocabulary size, zero sequence
length, zero layer count, zero width, zero head count, indivisible width or
out-of-range dropout fail with `ConfigError`; otherwise the immutable value is
built, with `dimFFN` derived as `4 * dModel` (§3), and nothing else happens.
The argument order mirrors the constructor of bert.hpp lines 55-62. -/
def create (srcVocabSize srcSeqLen numEncoderLayers dModel numHeads : ℕ)
    (dropout : ℚ) (attentionMask : List (List Bool)) (keyPaddingMask : List Bool) :
    Except ConfigError Model :=
  if srcVocabSize = 0 ∨ srcSeqLen = 0 ∨ numEncoderLayers = 0 ∨ dModel = 0 ∨
      numHeads = 0 ∨ dModel % numHeads ≠ 0 ∨ ¬(0 ≤ dropout ∧ dropout < 1) then
    Except.error ConfigError.invalidConfig
  else
    Except.ok
      ⟨⟨srcVocabSize, srcSeqLen, numEncoderLayers, dModel, numHeads, 4 * dModel,
        dropout, attentionMask, keyPaddingMask⟩,
       initParams
        ⟨srcVocabSize, srcSeqLen, numEncoderLayers, dModel, numHeads, 4 * dModel,
         dropout, attentionMask, keyPaddingMask⟩⟩

/-- Construction with every optional argument omitted, elaborated with the
default argument values declared in bert.hpp lines 55-62: twelve encoder
layers, width 512, eight heads, dropout 0.1, and empty masks. -/
def createDefault (srcVocabSize srcSeqLen : ℕ) : Except ConfigError Model :=
  create srcVocabSize srcSeqLen 12 512 8 (1 / 10) [] []

/-- Forward failure (spec §7 taxonomy). -/
inductive FwdError where
  | indexError
  | shapeError
deriving DecidableEq

/-- Row of a table, out-of-range positions giving the empty row. -/
def lookupRow (tab : Mat) (i : ℕ) : Vec := tab.getD i []

/-- Modelled from the spec: §4.2 (`bert_impl.hpp` absent).  The embedded and
positioned input: position `p` holds the embedding of the `p`-th token (the
zero vector past the end of the input) plus the positional signal of `p`;
every hidden tensor spans all `srcSeqLen` positions (§3/§4.2). -/
def embedTokens (tab posTab : Mat) (srcSeqLen dModel : ℕ) (ids : List ℕ) : Mat :=
  (List.range srcSeqLen).map (fun p =>
    addVec
      (if p < ids.length then lookupRow tab (ids.getD p 0)
       else List.replicate dModel 0)
      (lookupRow posTab p))

/-- Modelled from the spec: §4.2/§6/§8 (`bert_impl.hpp` absent).  The forward
pass: any out-of-range token id fails with `IndexError` (checked first, so it
wins over a length violation, which fails with `ShapeError`); otherwise the
embedded input runs through the encoder stack under the combined masks.
Evaluation mode, so dropout is the identity. -/
def forward (e rsqrt : ℚ → ℚ) (eps : ℚ) (m : Model) (ids : List ℕ) :
    Except FwdError Mat :=
  if ids.any (fun t => m.config.srcVocabSize ≤ t) then
    Except.error FwdError.indexError
  else if m.config.srcSeqLen < ids.length then
    Except.error FwdError.shapeError
  else
    let hd := m.config.dModel / m.config.numHeads
    Except.ok
      (encoderStack e rsqrt eps (rsqrt hd) hd m.params.layers
        (blockedRow m.config.attentionMask m.config.keyPaddingMask
          m.config.srcSeqLen)
        (embedTokens m.params.embedding m.params.posTable m.config.srcSeqLen
          m.config.dModel ids))

/-- Shape header written by `SaveModel` (spec §6 persisted state layout). -/
structure SavedHeader where
  srcVocabSize : ℕ
  srcSeqLen : ℕ
  numEncoderLayers : ℕ
  dModel : ℕ
  numHeads : ℕ
  dimFFN : ℕ
deriving DecidableEq

/-- A serialized model: header plus all parameter blobs (spec §6). -/
structure SavedFile where
  header : SavedHeader
  params : Params

/-- The header recorded for a configuration. -/
def headerOf (cfg : Config) : SavedHeader :=
  ⟨cfg.srcVocabSize, cfg.srcSeqLen, cfg.numEncoderLayers, cfg.dModel,
   cfg.numHeads, cfg.dimFFN⟩

/-- Modelled from the spec: §4.9/§6 (`bert_impl.hpp` absent; `SaveModel` of
bert.hpp lines 71-76 delegates to the persistence collaborator).  Saving
serializes the header and every learned parameter. -/
def saveModel (m : Model) : SavedFile := ⟨headerOf m.config, m.params⟩

/-- Persistence failure (spec §7 taxonomy). -/
inductive PersistError where
  | ioError
  | formatError
deriving DecidableEq

/-- Modelled from the spec: §4.9/§6 (`bert_impl.hpp` absent; `LoadModel` of
bert.hpp lines 64-69).  Loading from a readable file checks the stored header
against the live configuration before any parameter is applied: on mismatch
it fails with `FormatError` and the model is returned unchanged; on match all
parameters are replaced at once. -/
def loadModel (m : Model) (f : SavedFile) : Model × Option PersistError :=
  if f.header = headerOf m.config then (Model.mk m.config f.params, none)
  else (m, some PersistError.formatError)

/-- Modelled from the spec: §4.9.  Loading from a path: an unreadable path
(`none`) fails with `IOError` and leaves the model unchanged. -/
def loadModelFrom (m : Model) (file? : Option SavedFile) :
    Model × Option PersistError :=
  match file? with
  | none => (m, some PersistError.ioError)
  | some f => loadModel m f

/-- The two mask objects owned by the caller and passed to the constructor by
reference (bert.hpp lines 61-62). -/
structure CallerMasks where
  attentionMask : List (List Bool)
  keyPaddingMask : List Bool

/-- Construction reading the caller-owned mask objects: the members of
bert.hpp lines 100-104 are declared by value, so the constructor stores
copies of the referenced mask values. -/
def createFromCaller (srcVocabSize srcSeqLen numEncoderLayers dModel numHeads : ℕ)
    (dropout : ℚ) (env : CallerMasks) : Except ConfigError Model :=
  create srcVocabSize srcSeqLen numEncoderLayers dModel numHeads dropout
    env.attentionMask env.keyPaddingMask

/-- The caller overwrites its own attention mask object. -/
def setCallerAttentionMask (env : CallerMasks) (a : List (List Bool)) :
    CallerMasks :=
  ⟨a, env.keyPaddingMask⟩

/-- The caller overwrites its own key padding mask object. -/
def setCallerKeyPaddingMask (env : CallerMasks) (k : List Bool) : CallerMasks :=
  ⟨env.attentionMask, k⟩

/-- After construction the world is the caller environment paired with the
model; a caller-side mask mutation rewrites only the caller-owned objects,
because the model members hold copies (bert.hpp lines 100-104), not
references. -/
def afterCallerMutation (w : CallerMasks × Model) (a : List (List Bool))
    (k : List Bool) : CallerMasks × Model :=
  (setCallerKeyPaddingMask (setCallerAttentionMask w.1 a) k, w.2)

/-- The value returned by `LoadModel`, declared `void` in bert.hpp line 69. -/
def LoadModelReturn : Type := Unit

/-- The value returned by `SaveModel`, declared `void` in bert.hpp line 76. -/
def SaveModelReturn : Type := Unit

/-- The caller-visible outcome of a `LoadModel` call: an exception or the
`void` return value. -/
def LoadModelOutcome : Type := Except PersistError LoadModelReturn

/-- The caller-visible outcome of a `SaveModel` call: an exception or the
`void` return value. -/
def SaveModelOutcome : Type := Except PersistError SaveModelReturn

/-- Shape wellformedness of one encoder layer, the part of §3 that the output
shape of the layer depends on: the output projection, the second feed-forward
matrix, and the four normalisation vectors all have `dModel` rows or
entries. -/
def WfLayer (dModel : ℕ) (p : LayerParams) : Prop :=
  p.wo.length = dModel ∧ p.w2.length = dModel ∧ p.g1.length = dModel ∧
  p.s1.length = dModel ∧ p.g2.length = dModel ∧ p.s2.length = dModel

/-- Shape wellformedness of a model: the embedding rows, positional rows and
layers have the configured shapes. -/
def WfModel (m : Model) : Prop :=
  m.params.embedding.length = m.config.srcVocabSize ∧
  (∀ r ∈ m.params.embedding, r.length = m.config.dModel) ∧
  m.params.posTable.length = m.config.srcSeqLen ∧
  (∀ r ∈ m.params.posTable, r.length = m.config.dModel) ∧
  (∀ p ∈ m.params.layers, WfLayer m.config.dModel p)

/-!  Helper lemmas, shared by the claim theorems below. -/

/-- Every element of a zipped list is the image of a pair of elements of the
two input lists. -/
theorem mem_zipWith {α β γ : Type} (f : α → β → γ) :
    ∀ (l₁ : List α) (l₂ : List β), ∀ c ∈ List.zipWith f l₁ l₂,
      ∃ a b, a ∈ l₁ ∧ b ∈ l₂ ∧ c = f a b := by
  intro l₁
  induction l₁ with
  | nil => intro l₂ c hc; simp at hc
  | cons a t ih =>
    intro l₂ c hc
    cases l₂ with
    | nil => simp at hc
    | cons b t₂ =>
      simp only [List.zipWith_cons_cons, List.mem_cons] at hc
      rcases hc with h | h
      · exact ⟨a, b, by simp, by simp, h⟩
      · rcases ih t₂ c h with ⟨x, y, hx, hy, he⟩
        exact ⟨x, y, by simp [hx], by simp [hy], he⟩

/-- Dividing every entry divides the sum. -/
theorem sum_map_div (l : List ℚ) (c : ℚ) :
    (l.map (fun a => a / c)).sum = l.sum / c := by
  induction l with
  | nil => simp
  | cons a t ih => simp [ih, add_div]

/-- Length of the unnormalised weight row. -/
theorem preWeights_length (e : ℚ → ℚ) (b : List Bool) (s : List ℚ) :
    (preWeights e b s).length = min b.length s.length := by
  simp [preWeights]

/-- With a positive exponential, unnormalised weights are nonnegative. -/
theorem preWeights_nonneg (e : ℚ → ℚ) (he : ∀ x, 0 < e x) (b : List Bool)
    (s : List ℚ) : ∀ c ∈ preWeights e b s, 0 ≤ c := by
  intro c hc
  rcases mem_zipWith _ b s c hc with ⟨bj, sj, _, _, rfl⟩
  cases bj
  · simpa using (he sj).le
  · simp

/-- Entry formula for the unnormalised weight row. -/
theorem preWeights_getElem (e : ℚ → ℚ) (b : List Bool) (s : List ℚ) (j : ℕ)
    (hj : j < (preWeights e b s).length) (hjb : j < b.length)
    (hjs : j < s.length) :
    (preWeights e b s)[j] = if b[j] then (0 : ℚ) else e s[j] := by
  simp [preWeights, List.getElem_zipWith]

/-- If some key is unmasked, the unnormalised row sum is positive. -/
theorem preWeights_sum_pos (e : ℚ → ℚ) (he : ∀ x, 0 < e x) (b : List Bool)
    (s : List ℚ) (hb : b.length = s.length) (hx : ∃ x ∈ b, x = false) :
    0 < (preWeights e b s).sum := by
  rcases hx with ⟨x, hxb, hxf⟩
  rcases List.mem_iff_getElem.mp hxb with ⟨j, hj, hbj⟩
  have hjs : j < s.length := hb ▸ hj
  have hjw : j < (preWeights e b s).length := by
    rw [preWeights_length]; omega
  have hval : (preWeights e b s)[j] = e s[j] := by
    rw [preWeights_getElem e b s j hjw hj hjs, hbj, hxf]
    simp
  have hle := List.single_le_sum (preWeights_nonneg e he b s) _
    (List.getElem_mem hjw)
  rw [hval] at hle
  exact lt_of_lt_of_le (he _) hle

/-- Length of a masked softmax row. -/
theorem maskedSoftmaxRow_length (e : ℚ → ℚ) (b : List Bool) (s : List ℚ) :
    (maskedSoftmaxRow e b s).length = min b.length s.length := by
  simp only [maskedSoftmaxRow]
  split <;> simp [preWeights_length]

/-- A query with at least one unmasked key gets a weight row summing to 1. -/
theorem maskedSoftmaxRow_sum_one (e : ℚ → ℚ) (he : ∀ x, 0 < e x)
    (b : List Bool) (s : List ℚ) (hb : b.length = s.length)
    (hx : ∃ x ∈ b, x = false) : (maskedSoftmaxRow e b s).sum = 1 := by
  have hpos := preWeights_sum_pos e he b s hb hx
  simp only [maskedSoftmaxRow]
  rw [if_neg (ne_of_gt hpos), sum_map_div]
  exact div_self (ne_of_gt hpos)

/-- A query with every key masked gets the all-zero weight row. -/
theorem maskedSoftmaxRow_all_masked (e : ℚ → ℚ) (b : List Bool) (s : List ℚ)
    (hall : ∀ x ∈ b, x = true) : ∀ y ∈ maskedSoftmaxRow e b s, y = 0 := by
  have hw : ∀ c ∈ preWeights e b s, c = 0 := by
    intro c hc
    rcases mem_zipWith _ b s c hc with ⟨bj, sj, hbj, _, rfl⟩
    simp [hall bj hbj]
  intro y hy
  simp only [maskedSoftmaxRow] at hy
  split at hy
  · rcases List.mem_map.mp hy with ⟨c, _, rfl⟩
    rfl
  · rcases List.mem_map.mp hy with ⟨c, hc, rfl⟩
    rw [hw c hc]
    simp

/-- A masked key receives exactly zero weight, whatever the other keys. -/
theorem maskedSoftmaxRow_blocked_entry (e : ℚ → ℚ) (b : List Bool)
    (s : List ℚ) (j : ℕ) (hjb : j < b.length) (hjs : j < s.length)
    (hbj : b[j] = true) : (maskedSoftmaxRow e b s).getD j 0 = 0 := by
  have hjw : j < (preWeights e b s).length := by
    rw [preWeights_length]; omega
  have hval : (preWeights e b s)[j] = 0 := by
    rw [preWeights_getElem e b s j hjw hjb hjs, hbj]
    simp
  simp only [maskedSoftmaxRow]
  split
  · rw [List.getD_eq_getElem _ _ (by simpa using hjw)]
    simp
  · rw [List.getD_eq_getElem _ _ (by simpa using hjw)]
    simp [hval]

/-- Folding vector addition over all-zero rows keeps the zero vector. -/
theorem foldl_addVec_zero (len : ℕ) :
    ∀ l : Mat, (∀ r ∈ l, r = List.replicate len 0) →
      l.foldl addVec (List.replicate len 0) = List.replicate len 0 := by
  intro l
  induction l with
  | nil => intro _; rfl
  | cons r t ih =>
    intro h
    have hr := h r (by simp)
    have hz : addVec (List.replicate len 0) r = List.replicate len 0 := by
      rw [hr, addVec, List.zipWith_replicate]
      simp
    rw [List.foldl_cons, hz]
    exact ih fun x hx => h x (by simp [hx])

/-- The weighted sum with all-zero weights is the zero vector. -/
theorem weightedSum_zero (w : List ℚ) (rows : Mat) (len : ℕ)
    (hw : ∀ c ∈ w, c = 0) (hr : ∀ r ∈ rows, r.length = len) :
    weightedSum w rows len = List.replicate len 0 := by
  unfold weightedSum
  apply foldl_addVec_zero
  intro r hrm
  rcases mem_zipWith _ w rows r hrm with ⟨c, row, hcw, hrow, rfl⟩
  rw [hw c hcw, List.eq_replicate_iff]
  constructor
  · simp [hr row hrow]
  · intro x hx
    rcases List.mem_map.mp hx with ⟨a, _, rfl⟩
    simp

/-- The attention weight matrix has one row per query position. -/
theorem headWeights_length (e : ℚ → ℚ) (scale : ℚ) (hp : HeadParams)
    (blocked : ℕ → List Bool) (X : Mat) :
    (headWeights e scale hp blocked X).length = X.length := by
  simp [headWeights]

/-- Row formula of the attention weight matrix. -/
theorem headWeights_row (e : ℚ → ℚ) (scale : ℚ) (hp : HeadParams)
    (blocked : ℕ → List Bool) (X : Mat) (i : ℕ) (hi : i < X.length) :
    (headWeights e scale hp blocked X).getD i [] =
      maskedSoftmaxRow e (blocked i) ((headScores scale hp X).getD i []) := by
  rw [List.getD_eq_getElem _ _ (by simpa [headWeights_length] using hi)]
  simp [headWeights]

/-- Every score row spans all key positions. -/
theorem headScores_row_length (scale : ℚ) (hp : HeadParams) (X : Mat) (i : ℕ)
    (hi : i < X.length) :
    ((headScores scale hp X).getD i []).length = X.length := by
  simp only [headScores]
  rw [List.getD_eq_getElem _ _ (by simpa using hi)]
  simp

/-- Row formula of the per-head attention output. -/
theorem headOutputRows_row (e : ℚ → ℚ) (scale : ℚ) (hp : HeadParams)
    (blocked : ℕ → List Bool) (X : Mat) (hd : ℕ) (i : ℕ) (hi : i < X.length) :
    (headOutputRows e scale hp blocked X hd).getD i [] =
      weightedSum ((headWeights e scale hp blocked X).getD i [])
        (X.map (applyLinear hp.wv)) hd := by
  simp only [headOutputRows]
  rw [List.getD_eq_getElem _ _
      (by simpa [headWeights_length] using hi),
    List.getD_eq_getElem _ _ (by simpa [headWeights_length] using hi)]
  simp

/-- C1: in the forward computation, a per-head attention weight row of a
query with at least one unmasked key sums to 1 over the key axis; a row
whose keys are all masked out is all-zero (defined, not NaN) and the
attention output of that query is the zero vector. -/
theorem attention_row_sum_one_or_zero (e : ℚ → ℚ) (he : ∀ x, 0 < e x)
    (scale : ℚ) (hp : HeadParams) (blocked : ℕ → List Bool) (X : Mat) (hd : ℕ)
    (hwv : hp.wv.length = hd) (i : ℕ) (hi : i < X.length)
    (hbl : (blocked i).length = X.length) :
    ((∃ x ∈ blocked i, x = false) →
      ((headWeights e scale hp blocked X).getD i []).sum = 1) ∧
    ((∀ x ∈ blocked i, x = true) →
      (∀ w ∈ (headWeights e scale hp blocked X).getD i [], w = 0) ∧
      (headOutputRows e scale hp blocked X hd).getD i [] =
        List.replicate hd 0) := by
  have hrow := headWeights_row e scale hp blocked X i hi
  have hslen := headScores_row_length scale hp X i hi
  constructor
  · intro hx
    rw [hrow]
    exact maskedSoftmaxRow_sum_one e he _ _ (by rw [hbl, hslen]) hx
  · intro hall
    have hzero : ∀ w ∈ (headWeights e scale hp blocked X).getD i [], w = 0 := by
      rw [hrow]
      exact maskedSoftmaxRow_all_masked e _ _ hall
    refine ⟨hzero, ?_⟩
    rw [headOutputRows_row e scale hp blocked X hd i hi]
    apply weightedSum_zero _ _ _ hzero
    intro r hr
    rcases List.mem_map.mp hr with ⟨row, _, rfl⟩
    simp [applyLinear, hwv]

/-- C1 witness: one head with width 1 over two positions whose keys are all
masked for every query; the theorem applies with every hypothesis discharged
at this concrete input. -/
theorem attention_row_sum_one_or_zero_witness :
    ((∃ x ∈ [true, true], x = false) →
      ((headWeights (fun _ => (1 : ℚ)) 1 ⟨[[1]], [[1]], [[1]]⟩
        (fun _ => [true, true]) [[1], [2]]).getD 0 []).sum = 1) ∧
    ((∀ x ∈ [true, true], x = true) →
      (∀ w ∈ (headWeights (fun _ => (1 : ℚ)) 1 ⟨[[1]], [[1]], [[1]]⟩
        (fun _ => [true, true]) [[1], [2]]).getD 0 [], w = 0) ∧
      (headOutputRows (fun _ => (1 : ℚ)) 1 ⟨[[1]], [[1]], [[1]]⟩
        (fun _ => [true, true]) [[1], [2]] 1).getD 0 [] =
        List.replicate 1 0) :=
  attention_row_sum_one_or_zero (fun _ => (1 : ℚ)) (fun _ => one_pos) 1
    ⟨[[1]], [[1]], [[1]]⟩ (fun _ => [true, true]) [[1], [2]] 1 rfl 0
    (by decide) rfl

/-- C2: key padding blocks its key position for every query, a pair blocked
by either mask is blocked in the logical-OR combination, and a combined
blocked pair receives exactly zero attention weight in every head. -/
theorem masked_pair_zero_weight (e : ℚ → ℚ) (scale : ℚ) (hp : HeadParams)
    (am : List (List Bool)) (kp : List Bool) (X : Mat) (i j : ℕ)
    (hi : i < X.length) (hj : j < X.length) :
    (∀ q, kpMaskBlocks kp j = true → combinedBlocked am kp q j = true) ∧
    ((attnMaskBlocks am i j = true ∨ kpMaskBlocks kp j = true) →
      combinedBlocked am kp i j = true) ∧
    (combinedBlocked am kp i j = true →
      ((headWeights e scale hp (blockedRow am kp X.length) X).getD i
        []).getD j 0 = 0) := by
  refine ⟨?_, ?_, ?_⟩
  · intro q h
    simp [combinedBlocked, h]
  · intro h
    rcases h with h | h <;> simp [combinedBlocked, h]
  · intro h
    rw [headWeights_row e scale hp _ X i hi]
    have hbl : (blockedRow am kp X.length i).length = X.length := by
      simp [blockedRow]
    have hsl := headScores_row_length scale hp X i hi
    refine maskedSoftmaxRow_blocked_entry _ _ _ j (by omega) (by omega) ?_
    simp [blockedRow, List.getElem_map, List.getElem_range, h]

/-- C2 witness: a one-position model whose attention mask blocks the only
pair; the theorem applies with the position bounds discharged concretely. -/
theorem masked_pair_zero_weight_witness :
    (∀ q, kpMaskBlocks [] 0 = true → combinedBlocked [[true]] [] q 0 = true) ∧
    ((attnMaskBlocks [[true]] 0 0 = true ∨ kpMaskBlocks [] 0 = true) →
      combinedBlocked [[true]] [] 0 0 = true) ∧
    (combinedBlocked [[true]] [] 0 0 = true →
      ((headWeights (fun _ => (1 : ℚ)) 1 ⟨[[1]], [[1]], [[1]]⟩
        (blockedRow [[true]] [] [[(1 : ℚ)]].length) [[1]]).getD 0
        []).getD 0 0 = 0) :=
  masked_pair_zero_weight (fun _ => (1 : ℚ)) 1 ⟨[[1]], [[1]], [[1]]⟩
    [[true]] [] [[1]] 0 0 (by decide) (by decide)

/-- C3: construction fails with ConfigError whenever the vocabulary size is
zero, the sequence length is zero, or the width is not divisible by the head
count; width 4 with 2 heads is accepted, width 5 with 2 heads is rejected.
Construction is a pure function of its arguments, so a successful run builds
the immutable value and does nothing else. -/
theorem create_validation (v s nl dm nh : ℕ) (dr : ℚ) (am : List (List Bool))
    (kp : List Bool) (h : v = 0 ∨ s = 0 ∨ dm % nh ≠ 0) :
    create v s nl dm nh dr am kp = Except.error ConfigError.invalidConfig ∧
    (create 10 8 2 4 2 (1 / 10) [] []).isOk = true ∧
    create 10 8 2 5 2 (1 / 10) [] [] = Except.error ConfigError.invalidConfig := by
  refine ⟨?_, ?_, ?_⟩
  · unfold create
    rw [if_pos (by tauto)]
  · unfold create
    rw [if_neg (by push_neg; norm_num)]
    rfl
  · unfold create
    rw [if_pos (by norm_num)]

/-- C3 witness: a zero vocabulary size is rejected, and the two concrete
configurations behave as stated. -/
theorem create_validation_witness :
    create 0 8 2 4 2 (1 / 10) [] [] = Except.error ConfigError.invalidConfig ∧
    (create 10 8 2 4 2 (1 / 10) [] []).isOk = true ∧
    create 10 8 2 5 2 (1 / 10) [] [] = Except.error ConfigError.invalidConfig :=
  create_validation 0 8 2 4 2 (1 / 10) [] [] (Or.inl rfl)

/-- Successful construction yields exactly the validated configuration with
its derived `dimFFN` and the initial parameters. -/
theorem create_ok_cases (v s nl dm nh : ℕ) (dr : ℚ) (am : List (List Bool))
    (kp : List Bool) (m : Model)
    (h : create v s nl dm nh dr am kp = Except.ok m) :
    m = ⟨⟨v, s, nl, dm, nh, 4 * dm, dr, am, kp⟩,
      initParams ⟨v, s, nl, dm, nh, 4 * dm, dr, am, kp⟩⟩ := by
  unfold create at h
  split at h
  · cases h
  · cases h
    rfl

/-- The initial parameters are shape-wellformed for their configuration. -/
theorem initParams_wf (cfg : Config) : WfModel ⟨cfg, initParams cfg⟩ := by
  refine ⟨by simp [initParams, zeroMat], ?_, by simp [initParams, zeroMat],
    ?_, ?_⟩
  · intro r hr
    rcases List.mem_replicate.mp hr with ⟨-, rfl⟩
    simp
  · intro r hr
    rcases List.mem_replicate.mp hr with ⟨-, rfl⟩
    simp
  · intro p hp
    rcases List.mem_replicate.mp hp with ⟨-, rfl⟩
    exact ⟨by simp [initLayer, zeroMat], by simp [initLayer, zeroMat],
      by simp [initLayer], by simp [initLayer], by simp [initLayer],
      by simp [initLayer]⟩

/-- A linear map produces one entry per matrix row. -/
theorem applyLinear_length (W : Mat) (x : Vec) :
    (applyLinear W x).length = W.length := by
  simp [applyLinear]

/-- Vector addition truncates to the shorter operand. -/
theorem addVec_length (x y : Vec) :
    (addVec x y).length = min x.length y.length := by
  simp [addVec]

/-- Layer normalisation keeps the width when scale, shift and input agree. -/
theorem normRow_length (rsqrt : ℚ → ℚ) (eps : ℚ) (g s x : Vec) (d : ℕ)
    (hg : g.length = d) (hs : s.length = d) (hx : x.length = d) :
    (normRow rsqrt eps g s x).length = d := by
  simp [normRow, hg, hs, hx]

/-- Multi-head attention has one output row per input position. -/
theorem multiHeadAttention_length (e : ℚ → ℚ) (scale : ℚ) (hd : ℕ)
    (p : LayerParams) (blocked : ℕ → List Bool) (X : Mat) :
    (multiHeadAttention e scale hd p blocked X).length = X.length := by
  simp [multiHeadAttention, concatHeads]

/-- Every multi-head attention row has the width of the output projection. -/
theorem multiHeadAttention_row_length (e : ℚ → ℚ) (scale : ℚ) (hd : ℕ)
    (p : LayerParams) (blocked : ℕ → List Bool) (X : Mat) :
    ∀ r ∈ multiHeadAttention e scale hd p blocked X, r.length = p.wo.length := by
  intro r hr
  rcases List.mem_map.mp hr with ⟨x, _, rfl⟩
  simp [applyLinear]

/-- The feed-forward sublayer outputs the width of its second matrix. -/
theorem ffnRow_length (w1 w2 : Mat) (x : Vec) :
    (ffnRow w1 w2 x).length = w2.length := by
  simp [ffnRow, applyLinear]

/-- One encoder layer preserves the tensor shape. -/
theorem encoderLayer_shape (e rsqrt : ℚ → ℚ) (eps scale : ℚ) (hd : ℕ)
    (p : LayerParams) (blocked : ℕ → List Bool) (X : Mat) (n d : ℕ)
    (hlen : X.length = n) (hrows : ∀ r ∈ X, r.length = d)
    (hwf : WfLayer d p) :
    (encoderLayer e rsqrt eps scale hd p blocked X).length = n ∧
    ∀ r ∈ encoderLayer e rsqrt eps scale hd p blocked X, r.length = d := by
  obtain ⟨hwo, hw2, hg1, hs1, hg2, hs2⟩ := hwf
  constructor
  · simp [encoderLayer, multiHeadAttention_length, hlen]
  · intro r hr
    simp only [encoderLayer, List.mem_map] at hr
    rcases hr with ⟨r1, ⟨r0, hr0, rfl⟩, rfl⟩
    rcases mem_zipWith _ X _ r0 hr0 with ⟨xr, ar, hxr, har, rfl⟩
    have hxl : xr.length = d := hrows xr hxr
    have hal : ar.length = d := by
      rw [multiHeadAttention_row_length e scale hd p blocked X ar har, hwo]
    have h1 : (addVec xr ar).length = d := by
      simp [addVec_length, hxl, hal]
    have h2 := normRow_length rsqrt eps p.g1 p.s1 (addVec xr ar) d hg1 hs1 h1
    have h3 : (ffnRow p.w1 p.w2 (normRow rsqrt eps p.g1 p.s1
        (addVec xr ar))).length = d := by
      rw [ffnRow_length, hw2]
    have h4 : (addVec (normRow rsqrt eps p.g1 p.s1 (addVec xr ar))
        (ffnRow p.w1 p.w2 (normRow rsqrt eps p.g1 p.s1 (addVec xr ar)))).length
        = d := by
      simp [addVec_length, h2, h3]
    exact normRow_length rsqrt eps p.g2 p.s2 _ d hg2 hs2 h4

/-- The encoder stack preserves the tensor shape. -/
theorem encoderStack_shape (e rsqrt : ℚ → ℚ) (eps scale : ℚ) (hd : ℕ)
    (blocked : ℕ → List Bool) :
    ∀ (layers : List LayerParams) (X : Mat) (n d : ℕ), X.length = n →
      (∀ r ∈ X, r.length = d) → (∀ p ∈ layers, WfLayer d p) →
      (encoderStack e rsqrt eps scale hd layers blocked X).length = n ∧
      ∀ r ∈ encoderStack e rsqrt eps scale hd layers blocked X,
        r.length = d := by
  intro layers
  induction layers with
  | nil => intro X n d h1 h2 _; exact ⟨h1, h2⟩
  | cons p t ih =>
    intro X n d h1 h2 hwf
    have hstep := encoderLayer_shape e rsqrt eps scale hd p blocked X n d h1
      h2 (hwf p (by simp))
    have := ih (encoderLayer e rsqrt eps scale hd p blocked X) n d hstep.1
      hstep.2 (fun q hq => hwf q (by simp [hq]))
    simpa [encoderStack, List.foldl_cons] using this

/-- The embedded and positioned input is a `srcSeqLen × dModel` tensor
whenever the tables are wellformed and the token ids are in range. -/
theorem embedTokens_shape (tab posTab : Mat) (s d : ℕ) (ids : List ℕ)
    (htab : ∀ r ∈ tab, r.length = d) (hpos : posTab.length = s)
    (hposr : ∀ r ∈ posTab, r.length = d)
    (hids : ∀ t ∈ ids, t < tab.length) :
    (embedTokens tab posTab s d ids).length = s ∧
    ∀ r ∈ embedTokens tab posTab s d ids, r.length = d := by
  constructor
  · simp [embedTokens]
  · intro r hr
    simp only [embedTokens, List.mem_map] at hr
    rcases hr with ⟨p, hp, rfl⟩
    have hpn : p < s := List.mem_range.mp hp
    have hprange : p < posTab.length := by omega
    have hposrow : (lookupRow posTab p).length = d := by
      rw [lookupRow, List.getD_eq_getElem _ _ hprange]
      exact hposr _ (List.getElem_mem hprange)
    split
    case isTrue hlt =>
      have hmem : ids.getD p 0 ∈ ids := by
        rw [List.getD_eq_getElem _ _ hlt]
        exact List.getElem_mem hlt
      have hid : ids.getD p 0 < tab.length := hids _ hmem
      have h2 : (lookupRow tab (ids.getD p 0)).length = d := by
        rw [lookupRow, List.getD_eq_getElem _ _ hid]
        exact htab _ (List.getElem_mem hid)
      rw [addVec_length, h2, hposrow]
      exact Nat.min_self d
    case isFalse =>
      rw [addVec_length, List.length_replicate, hposrow]
      exact Nat.min_self d

/-- A forward pass over a shape-wellformed model with in-range input
succeeds and produces a `srcSeqLen × dModel` tensor. -/
theorem forward_ok_shape (e rsqrt : ℚ → ℚ) (eps : ℚ) (m : Model)
    (ids : List ℕ) (hwf : WfModel m)
    (hids : ∀ t ∈ ids, t < m.config.srcVocabSize)
    (hlen : ids.length ≤ m.config.srcSeqLen) :
    ∃ M, forward e rsqrt eps m ids = Except.ok M ∧
      M.length = m.config.srcSeqLen ∧
      ∀ r ∈ M, r.length = m.config.dModel := by
  obtain ⟨hemb, hembr, hpos, hposr, hlayers⟩ := hwf
  have hany : ids.any (fun t => m.config.srcVocabSize ≤ t) = false := by
    rw [List.any_eq_false]
    intro t ht
    simpa using not_le.mpr (hids t ht)
  have hembshape := embedTokens_shape m.params.embedding m.params.posTable
    m.config.srcSeqLen m.config.dModel ids hembr hpos hposr
    (fun t ht => by rw [hemb]; exact hids t ht)
  have hstack := encoderStack_shape e rsqrt
    eps (rsqrt (((m.config.dModel / m.config.numHeads : ℕ) : ℚ)))
    (m.config.dModel / m.config.numHeads)
    (blockedRow m.config.attentionMask m.config.keyPaddingMask
      m.config.srcSeqLen)
    m.params.layers
    (embedTokens m.params.embedding m.params.posTable m.config.srcSeqLen
      m.config.dModel ids)
    m.config.srcSeqLen m.config.dModel hembshape.1 hembshape.2 hlayers
  refine ⟨_, ?_, hstack.1, hstack.2⟩
  unfold forward
  rw [hany]
  simp only [Bool.false_eq_true, if_false]
  rw [if_neg (not_lt.mpr hlen)]

/-- C4 (amended): for every configuration accepted by construction and every
in-range token sequence of length at most `srcSeqLen`, the forward pass
succeeds and returns a tensor of shape `[srcSeqLen, dModel]` (hence of shape
`[L, dModel]` exactly when the input already has full length). -/
theorem forward_output_shape (e rsqrt : ℚ → ℚ) (eps : ℚ)
    (v s nl dm nh : ℕ) (dr : ℚ) (am : List (List Bool)) (kp : List Bool)
    (m : Model) (hc : create v s nl dm nh dr am kp = Except.ok m)
    (ids : List ℕ) (hids : ∀ t ∈ ids, t < v) (hlen : ids.length ≤ s) :
    ∃ M, forward e rsqrt eps m ids = Except.ok M ∧ M.length = s ∧
      ∀ r ∈ M, r.length = dm := by
  have hm := create_ok_cases v s nl dm nh dr am kp m hc
  subst hm
  exact forward_ok_shape e rsqrt eps _ ids (initParams_wf _) hids hlen

/-- C4 witness: a width-1 single-head single-layer model over sequence
length 2, fed one in-range token. -/
theorem forward_output_shape_witness :
    ∃ M, forward (fun _ => (1 : ℚ)) (fun _ => 1) 1
        ⟨⟨1, 2, 1, 1, 1, 4, 0, [], []⟩, initParams ⟨1, 2, 1, 1, 1, 4, 0, [], []⟩⟩
        [0] = Except.ok M ∧ M.length = 2 ∧ ∀ r ∈ M, r.length = 1 :=
  forward_output_shape (fun _ => (1 : ℚ)) (fun _ => 1) 1 1 2 1 1 1 0 [] [] _
    (by norm_num [create]) [0] (by decide) (by decide)

/-- C4 counterexample to the claim as stated: at the valid configuration
with `srcSeqLen = 2` and an input of length `L = 1`, the forward output has
2 rows, not `L = 1` rows. -/
theorem forward_output_shape_claim_cex :
    ∃ M, forward (fun _ => (1 : ℚ)) (fun _ => 1) 1
        ⟨⟨1, 2, 1, 1, 1, 4, 0, [], []⟩, initParams ⟨1, 2, 1, 1, 1, 4, 0, [], []⟩⟩
        [0] = Except.ok M ∧ M.length ≠ 1 := by
  obtain ⟨M, hM, hlen, -⟩ := forward_ok_shape (fun _ => (1 : ℚ)) (fun _ => 1) 1
    ⟨⟨1, 2, 1, 1, 1, 4, 0, [], []⟩, initParams ⟨1, 2, 1, 1, 1, 4, 0, [], []⟩⟩
    [0] (initParams_wf _) (by decide) (by decide)
  exact ⟨M, hM, by rw [hlen]; decide⟩

/-- C5: a forward pass whose input contains a token id at or above the
vocabulary size fails with IndexError. -/
theorem forward_index_error (e rsqrt : ℚ → ℚ) (eps : ℚ) (m : Model)
    (ids : List ℕ) (h : ∃ t ∈ ids, m.config.srcVocabSize ≤ t) :
    forward e rsqrt eps m ids = Except.error FwdError.indexError := by
  unfold forward
  rw [if_pos]
  rw [List.any_eq_true]
  rcases h with ⟨t, ht, hle⟩
  exact ⟨t, ht, by simpa using hle⟩

/-- C5 witness: token id 5 against vocabulary size 1. -/
theorem forward_index_error_witness :
    forward (fun _ => (1 : ℚ)) (fun _ => 1) 1
      ⟨⟨1, 1, 1, 1, 1, 4, 0, [], []⟩, initParams ⟨1, 1, 1, 1, 1, 4, 0, [], []⟩⟩
      [5] = Except.error FwdError.indexError :=
  forward_index_error (fun _ => (1 : ℚ)) (fun _ => 1) 1 _ [5]
    ⟨5, by decide, by decide⟩

/-- C6: saving a model and loading the file into a fresh model with the same
configuration succeeds, and the loaded model reproduces the forward output
of the original on every input (the forward pass runs in evaluation mode, so
dropout is disabled). -/
theorem save_load_roundtrip (orig fresh : Model)
    (h : fresh.config = orig.config) (e rsqrt : ℚ → ℚ) (eps : ℚ)
    (ids : List ℕ) :
    (loadModel fresh (saveModel orig)).2 = none ∧
    forward e rsqrt eps (loadModel fresh (saveModel orig)).1 ids =
      forward e rsqrt eps orig ids := by
  unfold loadModel saveModel
  rw [if_pos (by rw [h])]
  refine ⟨rfl, ?_⟩
  show forward e rsqrt eps ⟨fresh.config, orig.params⟩ ids = _
  rw [h]

/-- C6 witness: the saved parameters of a model replace the blank parameters
of a fresh model with the identical configuration. -/
theorem save_load_roundtrip_witness :
    (loadModel ⟨⟨1, 1, 1, 1, 1, 4, 0, [], []⟩, ⟨[], [], []⟩⟩
      (saveModel ⟨⟨1, 1, 1, 1, 1, 4, 0, [], []⟩,
        initParams ⟨1, 1, 1, 1, 1, 4, 0, [], []⟩⟩)).2 = none ∧
    forward (fun _ => (1 : ℚ)) (fun _ => 1) 1
      (loadModel ⟨⟨1, 1, 1, 1, 1, 4, 0, [], []⟩, ⟨[], [], []⟩⟩
        (saveModel ⟨⟨1, 1, 1, 1, 1, 4, 0, [], []⟩,
          initParams ⟨1, 1, 1, 1, 1, 4, 0, [], []⟩⟩)).1 [0] =
      forward (fun _ => (1 : ℚ)) (fun _ => 1) 1
        ⟨⟨1, 1, 1, 1, 1, 4, 0, [], []⟩,
          initParams ⟨1, 1, 1, 1, 1, 4, 0, [], []⟩⟩ [0] :=
  save_load_roundtrip
    ⟨⟨1, 1, 1, 1, 1, 4, 0, [], []⟩, initParams ⟨1, 1, 1, 1, 1, 4, 0, [], []⟩⟩
    ⟨⟨1, 1, 1, 1, 1, 4, 0, [], []⟩, ⟨[], [], []⟩⟩ rfl (fun _ => (1 : ℚ))
    (fun _ => 1) 1 [0]

/-- C7: loading a file whose header does not match the live configuration
fails with FormatError, and every failing load (IOError from an unreadable
path or FormatError from a mismatched header) leaves the live model exactly
as it was — replacement is all-or-nothing. -/
theorem load_mismatch_atomic (m : Model) (f : SavedFile)
    (hne : f.header ≠ headerOf m.config) :
    loadModel m f = (m, some PersistError.formatError) ∧
    ∀ (file? : Option SavedFile) (err : PersistError),
      (loadModelFrom m file?).2 = some err → (loadModelFrom m file?).1 = m := by
  constructor
  · unfold loadModel
    rw [if_neg hne]
  · intro file? err h
    cases file? with
    | none => rfl
    | some g =>
      by_cases hok : g.header = headerOf m.config
      · exfalso
        simp [loadModelFrom, loadModel, hok] at h
      · simp [loadModelFrom, loadModel, hok]

/-- C7 witness: a header declaring width 5 against a live model of width 1
(all other header fields equal). -/
theorem load_mismatch_atomic_witness :
    loadModel
      ⟨⟨1, 1, 1, 1, 1, 4, 0, [], []⟩, initParams ⟨1, 1, 1, 1, 1, 4, 0, [], []⟩⟩
      ⟨⟨1, 1, 1, 5, 1, 4⟩, ⟨[], [], []⟩⟩ =
      (⟨⟨1, 1, 1, 1, 1, 4, 0, [], []⟩,
        initParams ⟨1, 1, 1, 1, 1, 4, 0, [], []⟩⟩, some PersistError.formatError) ∧
    ∀ (file? : Option SavedFile) (err : PersistError),
      (loadModelFrom ⟨⟨1, 1, 1, 1, 1, 4, 0, [], []⟩,
        initParams ⟨1, 1, 1, 1, 1, 4, 0, [], []⟩⟩ file?).2 = some err →
      (loadModelFrom ⟨⟨1, 1, 1, 1, 1, 4, 0, [], []⟩,
        initParams ⟨1, 1, 1, 1, 1, 4, 0, [], []⟩⟩ file?).1 =
        ⟨⟨1, 1, 1, 1, 1, 4, 0, [], []⟩, initParams ⟨1, 1, 1, 1, 1, 4, 0, [], []⟩⟩ :=
  load_mismatch_atomic _ ⟨⟨1, 1, 1, 5, 1, 4⟩, ⟨[], [], []⟩⟩ (by decide)

/-- C8: with the optional arguments omitted, construction elaborates with
exactly the declared defaults — 12 encoder layers, width 512, 8 heads,
dropout 0.1 and empty masks — and the resulting configuration derives
`dimFFN` as `4 * dModel` rather than taking it as a constructor argument. -/
theorem create_default_args (v s : ℕ) (m : Model)
    (h : createDefault v s = Except.ok m) :
    createDefault v s = create v s 12 512 8 (1 / 10) [] [] ∧
    m.config.numEncoderLayers = 12 ∧ m.config.dModel = 512 ∧
    m.config.numHeads = 8 ∧ m.config.dropout = 1 / 10 ∧
    m.config.attentionMask = [] ∧ m.config.keyPaddingMask = [] ∧
    m.config.dimFFN = 4 * m.config.dModel := by
  have hm := create_ok_cases v s 12 512 8 (1 / 10) [] [] m h
  subst hm
  exact ⟨rfl, rfl, rfl, rfl, rfl, rfl, rfl, rfl⟩

/-- C8 witness: default construction at vocabulary size 1 and sequence
length 1. -/
theorem create_default_args_witness :
    createDefault 1 1 = create 1 1 12 512 8 (1 / 10) [] [] ∧
    (⟨⟨1, 1, 12, 512, 8, 2048, 1 / 10, [], []⟩,
      initParams ⟨1, 1, 12, 512, 8, 2048, 1 / 10, [], []⟩⟩ :
        Model).config.numEncoderLayers = 12 ∧
    (⟨⟨1, 1, 12, 512, 8, 2048, 1 / 10, [], []⟩,
      initParams ⟨1, 1, 12, 512, 8, 2048, 1 / 10, [], []⟩⟩ :
        Model).config.dModel = 512 ∧
    (⟨⟨1, 1, 12, 512, 8, 2048, 1 / 10, [], []⟩,
      initParams ⟨1, 1, 12, 512, 8, 2048, 1 / 10, [], []⟩⟩ :
        Model).config.numHeads = 8 ∧
    (⟨⟨1, 1, 12, 512, 8, 2048, 1 / 10, [], []⟩,
      initParams ⟨1, 1, 12, 512, 8, 2048, 1 / 10, [], []⟩⟩ :
        Model).config.dropout = 1 / 10 ∧
    (⟨⟨1, 1, 12, 512, 8, 2048, 1 / 10, [], []⟩,
      initParams ⟨1, 1, 12, 512, 8, 2048, 1 / 10, [], []⟩⟩ :
        Model).config.attentionMask = [] ∧
    (⟨⟨1, 1, 12, 512, 8, 2048, 1 / 10, [], []⟩,
      initParams ⟨1, 1, 12, 512, 8, 2048, 1 / 10, [], []⟩⟩ :
        Model).config.keyPaddingMask = [] ∧
    (⟨⟨1, 1, 12, 512, 8, 2048, 1 / 10, [], []⟩,
      initParams ⟨1, 1, 12, 512, 8, 2048, 1 / 10, [], []⟩⟩ :
        Model).config.dimFFN =
      4 * (⟨⟨1, 1, 12, 512, 8, 2048, 1 / 10, [], []⟩,
        initParams ⟨1, 1, 12, 512, 8, 2048, 1 / 10, [], []⟩⟩ :
          Model).config.dModel :=
  create_default_args 1 1 _ (by norm_num [createDefault, create])

/-- C9: construction snapshots the caller mask objects into the model-owned
by-value members, so overwriting the caller objects afterwards leaves the
stored masks — and therefore every subsequent forward result — unchanged. -/
theorem caller_mask_mutation_frame (v s nl dm nh : ℕ) (dr : ℚ)
    (env : CallerMasks) (m : Model)
    (hc : createFromCaller v s nl dm nh dr env = Except.ok m)
    (a2 : List (List Bool)) (k2 : List Bool) (e rsqrt : ℚ → ℚ) (eps : ℚ)
    (ids : List ℕ) :
    m.config.attentionMask = env.attentionMask ∧
    m.config.keyPaddingMask = env.keyPaddingMask ∧
    (afterCallerMutation (env, m) a2 k2).2.config.attentionMask =
      env.attentionMask ∧
    (afterCallerMutation (env, m) a2 k2).2.config.keyPaddingMask =
      env.keyPaddingMask ∧
    forward e rsqrt eps (afterCallerMutation (env, m) a2 k2).2 ids =
      forward e rsqrt eps m ids := by
  have hm := create_ok_cases v s nl dm nh dr env.attentionMask
    env.keyPaddingMask m hc
  subst hm
  exact ⟨rfl, rfl, rfl, rfl, rfl⟩

/-- C9 witness: the caller environment holds a blocking attention mask and a
key padding mask, both overwritten after construction. -/
theorem caller_mask_mutation_frame_witness :
    (⟨⟨1, 1, 1, 1, 1, 4, 0, [[true]], [false]⟩,
      initParams ⟨1, 1, 1, 1, 1, 4, 0, [[true]], [false]⟩⟩ :
        Model).config.attentionMask =
      (⟨[[true]], [false]⟩ : CallerMasks).attentionMask ∧
    (⟨⟨1, 1, 1, 1, 1, 4, 0, [[true]], [false]⟩,
      initParams ⟨1, 1, 1, 1, 1, 4, 0, [[true]], [false]⟩⟩ :
        Model).config.keyPaddingMask =
      (⟨[[true]], [false]⟩ : CallerMasks).keyPaddingMask ∧
    (afterCallerMutation (⟨[[true]], [false]⟩,
      ⟨⟨1, 1, 1, 1, 1, 4, 0, [[true]], [false]⟩,
        initParams ⟨1, 1, 1, 1, 1, 4, 0, [[true]], [false]⟩⟩) [[false]]
      [true]).2.config.attentionMask =
      (⟨[[true]], [false]⟩ : CallerMasks).attentionMask ∧
    (afterCallerMutation (⟨[[true]], [false]⟩,
      ⟨⟨1, 1, 1, 1, 1, 4, 0, [[true]], [false]⟩,
        initParams ⟨1, 1, 1, 1, 1, 4, 0, [[true]], [false]⟩⟩) [[false]]
      [true]).2.config.keyPaddingMask =
      (⟨[[true]], [false]⟩ : CallerMasks).keyPaddingMask ∧
    forward (fun _ => (1 : ℚ)) (fun _ => 1) 1
      (afterCallerMutation (⟨[[true]], [false]⟩,
        ⟨⟨1, 1, 1, 1, 1, 4, 0, [[true]], [false]⟩,
          initParams ⟨1, 1, 1, 1, 1, 4, 0, [[true]], [false]⟩⟩) [[false]]
        [true]).2 [0] =
      forward (fun _ => (1 : ℚ)) (fun _ => 1) 1
        ⟨⟨1, 1, 1, 1, 1, 4, 0, [[true]], [false]⟩,
          initParams ⟨1, 1, 1, 1, 1, 4, 0, [[true]], [false]⟩⟩ [0] :=
  caller_mask_mutation_frame 1 1 1 1 1 0 ⟨[[true]], [false]⟩ _
    (by norm_num [createFromCaller, create]) [[false]] [true]
    (fun _ => (1 : ℚ)) (fun _ => 1) 1 [0]

/-- C10: `LoadModel` and `SaveModel` are declared `void`, so the return
channel of either carries no information — any two return values are equal —
and a call outcome is either an exception or the single uninformative
return value; no success or error code can travel through the return
channel. -/
theorem load_save_void_return :
    (∀ a b : LoadModelReturn, a = b) ∧
    (∀ a b : SaveModelReturn, a = b) ∧
    (∀ o : LoadModelOutcome,
      o = Except.ok (() : LoadModelReturn) ∨ ∃ err, o = Except.error err) ∧
    (∀ o : SaveModelOutcome,
      o = Except.ok (() : SaveModelReturn) ∨ ∃ err, o = Except.error err) := by
  refine ⟨fun a b => rfl, fun a b => rfl, ?_, ?_⟩ <;>
  · intro o
    rcases (o : Except PersistError Unit) with err | v
    · exact Or.inr ⟨err, rfl⟩
    · exact Or.inl rfl

end BertSpec
